import Mathlib

/-!
Verification of the simplified OAuth / email-integration module of the
TM-Case-Booking repository.  The definitions below are a shallow embedding of
the TypeScript source: `localStorage` is modelled as a function from keys to
optional stored strings, `Date.now()` as an explicit `now : Nat` argument
(milliseconds), network responses as explicit `Option`-valued oracles, and
JSON (de)serialization as explicit function parameters.  JavaScript string
truthiness (`undefined` and the empty string are falsy) is modelled by
`jsTruthy`.
-/

namespace OAuthEmail

/-- The two supported OAuth providers. -/
inductive Provider
  | google
  | microsoft
deriving DecidableEq, Repr

/-- The provider name as it appears in storage keys. -/
def Provider.str : Provider → String
  | .google => "google"
  | .microsoft => "microsoft"

/-- `AuthTokens` record from the source (`refreshToken?` is optional). -/
structure AuthTokens where
  accessToken : String
  refreshToken : Option String
  expiresIn : Nat
  expiresAt : Nat
deriving DecidableEq, Repr

/-- `UserInfo` record from the source. -/
structure UserInfo where
  id : String
  email : String
  name : String
  picture : Option String
deriving DecidableEq, Repr

/-- JavaScript truthiness of an optional string: `undefined` and `""` are
falsy, every other string is truthy. -/
def jsTruthy : Option String → Bool
  | none => false
  | some s => s ≠ ""

/-- The browser `localStorage`, restricted to the keys this module touches:
a partial map from key strings to stored strings. -/
def Storage : Type := String → Option String

/-- Key of the token record: `email_auth_${country}_${provider}`. -/
def authKey (country provider : String) : String :=
  "email_auth_" ++ country ++ "_" ++ provider

/-- Key of the user-info record: `email_userinfo_${country}_${provider}`. -/
def userInfoKey (country provider : String) : String :=
  "email_userinfo_" ++ country ++ "_" ++ provider

/-- `storeAuthTokens`: serialize and write the token record. -/
def storeAuthTokens (serialize : AuthTokens → String) (country provider : String)
    (tokens : AuthTokens) (ls : Storage) : Storage :=
  fun k => if k = authKey country provider then some (serialize tokens) else ls k

/-- `storeUserInfo`: serialize and write the user-info record. -/
def storeUserInfo (serialize : UserInfo → String) (country provider : String)
    (userInfo : UserInfo) (ls : Storage) : Storage :=
  fun k => if k = userInfoKey country provider then some (serialize userInfo) else ls k

/-- `clearUserInfo`: remove the user-info record. -/
def clearUserInfo (country provider : String) (ls : Storage) : Storage :=
  fun k => if k = userInfoKey country provider then none else ls k

/-- `clearAuthTokens`: remove the token record, then also clear the
associated user info (the source calls `clearUserInfo` at the end). -/
def clearAuthTokens (country provider : String) (ls : Storage) : Storage :=
  clearUserInfo country provider
    (fun k => if k = authKey country provider then none else ls k)

/-- `getStoredAuthTokens`, kept at the level of a computation that could in
principle throw (`Except`): the absent-key path returns `ok none`, and the
`try \x7b JSON.parse \x7d catch` wraps the parse so a malformed payload also
returns `ok none`.  `parse` models `JSON.parse` at this record type. -/
def getStoredAuthTokensE (parse : String → Except String AuthTokens)
    (ls : Storage) (country provider : String) : Except String (Option AuthTokens) :=
  match ls (authKey country provider) with
  | none => .ok none
  | some stored =>
    match parse stored with
    | .ok t => .ok (some t)
    | .error _ => .ok none

/-- `getStoredUserInfo` under the same modelling as `getStoredAuthTokensE`. -/
def getStoredUserInfoE (parse : String → Except String UserInfo)
    (ls : Storage) (country provider : String) : Except String (Option UserInfo) :=
  match ls (userInfoKey country provider) with
  | none => .ok none
  | some stored =>
    match parse stored with
    | .ok u => .ok (some u)
    | .error _ => .ok none

/-- `getStoredAuthTokens` as its callers observe it (it never throws). -/
def getStoredAuthTokens (parse : String → Except String AuthTokens)
    (ls : Storage) (country provider : String) : Option AuthTokens :=
  match getStoredAuthTokensE parse ls country provider with
  | .ok r => r
  | .error _ => none

/-- `isTokenExpired`: `Date.now() >= tokens.expiresAt`. -/
def isTokenExpired (now : Nat) (tokens : AuthTokens) : Bool :=
  tokens.expiresAt ≤ now

/-- `isTokenExpiringSoon`: `Date.now() + 5*60*1000 >= tokens.expiresAt`. -/
def isTokenExpiringSoon (now : Nat) (tokens : AuthTokens) : Bool :=
  tokens.expiresAt ≤ now + 5 * 60 * 1000

/-- Body of a successful token-endpoint response, as the source reads it
(`access_token`, optional `refresh_token`, `expires_in` seconds). -/
structure RefreshResp where
  access_token : String
  refresh_token : Option String
  expires_in : Nat
deriving DecidableEq, Repr

/-- `refreshMicrosoftToken`.  `clientId` models
`process.env.REACT_APP_MICROSOFT_CLIENT_ID` (absent or empty is falsy and the
resulting throw is caught, yielding `null`); `resp` models the network call:
`none` covers both a rejected fetch and a non-ok response (both return
`null`), `some d` an ok JSON body.  On success the new tokens are stored
under (country, "microsoft") — keeping the old refresh token when the
response carries a falsy one — and returned. -/
def refreshMicrosoftToken (serialize : AuthTokens → String) (now : Nat)
    (clientId : Option String) (resp : Option RefreshResp)
    (country refreshToken : String) (ls : Storage) : Option AuthTokens × Storage :=
  if jsTruthy clientId = false then (none, ls)
  else
    match resp with
    | none => (none, ls)
    | some d =>
      let newTokens : AuthTokens :=
        { accessToken := d.access_token
          refreshToken := some (if jsTruthy d.refresh_token then d.refresh_token.getD ""
                                else refreshToken)
          expiresIn := d.expires_in
          expiresAt := now + d.expires_in * 1000 }
      (some newTokens, storeAuthTokens serialize country "microsoft" newTokens ls)

/-- `getValidAccessToken`: read the stored tokens, return the access token if
still valid, otherwise attempt a Microsoft refresh when a truthy refresh
token is present, and clear storage on every non-refreshable or failed
path.  Returns the token (or `null`) together with the updated storage. -/
def getValidAccessToken (parse : String → Except String AuthTokens)
    (serialize : AuthTokens → String) (now : Nat) (clientId : Option String)
    (resp : Option RefreshResp) (country : String) (provider : Provider)
    (ls : Storage) : Option String × Storage :=
  match getStoredAuthTokens parse ls country provider.str with
  | none => (none, ls)
  | some tokens =>
    if isTokenExpired now tokens = false then (some tokens.accessToken, ls)
    else if provider = Provider.microsoft ∧ jsTruthy tokens.refreshToken = true then
      match refreshMicrosoftToken serialize now clientId resp country
          (tokens.refreshToken.getD "") ls with
      | (some newTokens, ls₁) => (some newTokens.accessToken, ls₁)
      | (none, ls₁) => (none, clearAuthTokens country provider.str ls₁)
    else (none, clearAuthTokens country provider.str ls)

/-- The token-validation algorithm exactly as the specification words it
(claim C1): read tokens, absent gives null; not expired returns the access
token unchanged; expired Microsoft tokens carrying a refresh token perform a
refresh that on success persists the new tokens (retaining the old refresh
token when the response omits one) and returns the new access token, and on
any failure clears the identity's stored tokens and returns null; expired
otherwise (Google, or no refresh token) clears and returns null.  Written to
be compared with `getValidAccessToken` above. -/
def getValidAccessTokenSpec (parse : String → Except String AuthTokens)
    (serialize : AuthTokens → String) (now : Nat) (clientId : Option String)
    (resp : Option RefreshResp) (country : String) (provider : Provider)
    (ls : Storage) : Option String × Storage :=
  match getStoredAuthTokens parse ls country provider.str with
  | none => (none, ls)
  | some tokens =>
    if isTokenExpired now tokens = false then (some tokens.accessToken, ls)
    else if provider = Provider.microsoft ∧ jsTruthy tokens.refreshToken = true then
      match clientId, resp with
      | some cid, some d =>
        if cid ≠ "" then
          let newTokens : AuthTokens :=
            { accessToken := d.access_token
              refreshToken := some (if jsTruthy d.refresh_token then d.refresh_token.getD ""
                                    else tokens.refreshToken.getD "")
              expiresIn := d.expires_in
              expiresAt := now + d.expires_in * 1000 }
          (some newTokens.accessToken,
           storeAuthTokens serialize country "microsoft" newTokens ls)
        else (none, clearAuthTokens country provider.str ls)
      | _, _ => (none, clearAuthTokens country provider.str ls)
    else (none, clearAuthTokens country provider.str ls)

/-! ### PKCE and base64url

`btoa` over a binary string is standard base64; the source then rewrites
`'+' → '-'`, `'/' → '_'` and strips `'='` to obtain base64url.  Bytes are
modelled as `Nat` values below 256. -/

/-- The base64 alphabet used by `btoa`. -/
def b64Alphabet : List Char :=
  "ABCDEFGHIJKLMNOPQRSTUVWXYZabcdefghijklmnopqrstuvwxyz0123456789+/".data

/-- The base64 digit character for a 6-bit value. -/
def b64Char (n : Nat) : Char := b64Alphabet.getD n '='

/-- The 6-bit value of a base64 digit character. -/
def b64Value (c : Char) : Nat := b64Alphabet.indexOf c

/-- Standard base64 encoding of a byte list (the semantics of `btoa` on the
corresponding binary string), with `'='` padding. -/
def b64EncodeChunks : List Nat → List Char
  | [] => []
  | [a] => [b64Char (a / 4), b64Char (a % 4 * 16), '=', '=']
  | [a, b] => [b64Char (a / 4), b64Char (a % 4 * 16 + b / 16), b64Char (b % 16 * 4), '=']
  | a :: b :: c :: rest =>
    b64Char (a / 4) :: b64Char (a % 4 * 16 + b / 16) ::
    b64Char (b % 16 * 4 + c / 64) :: b64Char (c % 64) :: b64EncodeChunks rest

/-- `.replace(/\+/g, '-')` at the character level. -/
def plusToMinus (c : Char) : Char := if c = '+' then '-' else c

/-- `.replace(/\//g, '_')` at the character level. -/
def slashToUnderscore (c : Char) : Char := if c = '/' then '_' else c

/-- The source's base64 → base64url postprocessing of the PKCE challenge:
replace `'+'` and `'/'`, then drop every `'='`. -/
def toBase64Url (cs : List Char) : List Char :=
  ((cs.map plusToMinus).map slashToUnderscore).filter (fun c => c ≠ '=')

/-- Inverse of the character replacements, used to state the decode
direction of base64url. -/
def fromUrlChar (c : Char) : Char :=
  if c = '-' then '+' else if c = '_' then '/' else c

/-- Base64 digit groups back to bytes (unpadded tail groups of 2 or 3
characters decode to 1 or 2 bytes). -/
def b64DecodeQuads : List Char → List Nat
  | a :: b :: c :: d :: rest =>
    (b64Value a * 4 + b64Value b / 16) ::
    (b64Value b % 16 * 16 + b64Value c / 4) ::
    (b64Value c % 4 * 64 + b64Value d) :: b64DecodeQuads rest
  | [a, b, c] =>
    [b64Value a * 4 + b64Value b / 16, b64Value b % 16 * 16 + b64Value c / 4]
  | [a, b] => [b64Value a * 4 + b64Value b / 16]
  | _ => []

/-- Decode a base64url string back to bytes. -/
def b64UrlDecode (cs : List Char) : List Nat :=
  b64DecodeQuads (cs.map fromUrlChar)

/-- The result of pushing one 6-bit value through encode-side mapping:
`b64Char` then both replacements. -/
def b64UrlChar (n : Nat) : Char := slashToUnderscore (plusToMinus (b64Char n))

/-- UTF-8 encoding of one character (the semantics of
`unescape(encodeURIComponent(·))` / `TextEncoder`). -/
def utf8EncodeChar (c : Char) : List Nat :=
  let n := c.toNat
  if n < 128 then [n]
  else if n < 2048 then [192 + n / 64, 128 + n % 64]
  else if n < 65536 then [224 + n / 4096, 128 + n / 64 % 64, 128 + n % 64]
  else [240 + n / 262144, 128 + n / 4096 % 64, 128 + n / 64 % 64, 128 + n % 64]

/-- UTF-8 encoding of a character list. -/
def utf8Encode (s : List Char) : List Nat :=
  (s.map utf8EncodeChar).flatten

/-- The 66-character unreserved charset of `generateRandomString`. -/
def pkceCharset : List Char :=
  "ABCDEFGHIJKLMNOPQRSTUVWXYZabcdefghijklmnopqrstuvwxyz0123456789-._~".data

/-- `generateRandomString`: each position takes
`charset.charAt(Math.floor(Math.random() * charset.length))`; the random
draws are modelled by `draw : Nat → Nat`, with `draw i < 66` guaranteed by
`Math.random() < 1`. -/
def generateRandomString (draw : Nat → Nat) (length : Nat) : List Char :=
  (List.range length).map fun i => pkceCharset.getD (draw i) ' '

/-- `PKCEChallenge` record. -/
structure PKCEChallenge where
  codeVerifier : List Char
  codeChallenge : List Char
deriving DecidableEq, Repr

/-- `generatePKCEChallenge`: a 128-character random verifier, whose UTF-8
bytes are hashed (`sha256` models `crypto.subtle.digest('SHA-256', ·)`) and
base64url-encoded without padding. -/
def generatePKCEChallenge (draw : Nat → Nat) (sha256 : List Nat → List Nat) :
    PKCEChallenge :=
  let codeVerifier := generateRandomString draw 128
  let digest := sha256 (utf8Encode codeVerifier)
  let codeChallenge := toBase64Url (b64EncodeChunks digest)
  ⟨codeVerifier, codeChallenge⟩

/-- Boolean list-prefix test. -/
def isPrefixOfB : List Char → List Char → Bool
  | [], _ => true
  | _ :: _, [] => false
  | a :: as, b :: bs => a == b && isPrefixOfB as bs

/-- Boolean contiguous-segment containment test. -/
def containsSeg (sub : List Char) : List Char → Bool
  | [] => isPrefixOfB sub []
  | c :: rest => isPrefixOfB sub (c :: rest) || containsSeg sub rest

/-- JavaScript `String.prototype.includes`. -/
def jsIncludes (s sub : String) : Bool := containsSeg sub.data s.data

/-- JavaScript `Array.prototype.join` with a separator. -/
def joinWith (sep : String) : List String → String
  | [] => ""
  | [x] => x
  | x :: xs => x ++ sep ++ joinWith sep xs

/-- The mutable state of a `SimplifiedOAuthManager` instance: its provider
and the optional in-flight PKCE challenge (`this.pkceChallenge`). -/
structure Manager where
  provider : Provider
  pkceChallenge : Option PKCEChallenge
deriving DecidableEq, Repr

/-- `createOAuthManager`: a fresh manager has no PKCE challenge. -/
def createOAuthManager (p : Provider) : Manager := ⟨p, none⟩

/-- Observable outcome of `getAuthUrl`: the built query parameters (or the
configuration error), the updated manager state, and how many calls to
`Math.random` were made. -/
structure AuthUrlOutcome where
  result : Except String (List (String × String))
  manager : Manager
  randomDraws : Nat

/-- `getAuthUrl`: rejects a blank or placeholder client id before anything
else (in particular before any PKCE generation and before any random draw);
otherwise generates the PKCE challenge (128 random draws), installs it on
the manager and assembles the authorization query parameters, adding
Google's offline-access parameters. -/
def getAuthUrl (m : Manager) (clientId : String) (scopes : List String)
    (redirectUri : String) (draw : Nat → Nat) (sha256 : List Nat → List Nat)
    (state : String) : AuthUrlOutcome :=
  if clientId = "" ∨ jsIncludes clientId "your-" = true ∨ clientId = "" then
    ⟨.error (m.provider.str ++
      " OAuth client ID is not properly configured. Please check your environment variables."),
     m, 0⟩
  else
    let ch := generatePKCEChallenge draw sha256
    let baseParams := [("client_id", clientId), ("response_type", "code"),
      ("scope", joinWith " " scopes), ("redirect_uri", redirectUri),
      ("state", state)]
    let withPkce := baseParams ++
      [("code_challenge", String.mk ch.codeChallenge),
       ("code_challenge_method", "S256")]
    let ps := if m.provider = Provider.google then
        withPkce ++ [("access_type", "offline"), ("prompt", "consent")]
      else withPkce
    ⟨.ok ps, { m with pkceChallenge := some ch }, 128⟩

/-- Observable outcome of `exchangeCodeForTokens`: the token result (or the
thrown error), the manager state afterwards, and whether a token request was
sent to the network. -/
structure ExchangeOutcome where
  result : Except String AuthTokens
  manager : Manager
  requestSent : Bool
deriving Repr

/-- The error thrown when no PKCE challenge is present. -/
def missingChallengeMsg : String :=
  "PKCE challenge not found. Make sure to call getAuthUrl first."

/-- `exchangeCodeForTokens`: throws the missing-challenge error (before any
network request) when `this.pkceChallenge` is unset; otherwise POSTs the
code with the stored verifier (`resp` models the token endpoint: `none` is
any failure, `some d` an ok body) and computes `expiresAt` from the
response.  The challenge is left on the manager in every case. -/
def exchangeCodeForTokens (now : Nat) (m : Manager) (code : String)
    (resp : Option RefreshResp) : ExchangeOutcome :=
  match m.pkceChallenge with
  | none => ⟨.error missingChallengeMsg, m, false⟩
  | some _ =>
    match resp with
    | none => ⟨.error "Token exchange failed", m, true⟩
    | some d =>
      ⟨.ok { accessToken := d.access_token, refreshToken := d.refresh_token,
             expiresIn := d.expires_in, expiresAt := now + d.expires_in * 1000 },
       m, true⟩

/-- An email attachment as passed to `sendEmail` (content already base64). -/
structure Attachment where
  filename : String
  content : String
  contentType : String
deriving DecidableEq, Repr

/-- The email payload passed to `sendEmail` (attachments may be empty);
`toAddrs` models the source's `to` field, whose name Lean reserves. -/
structure EmailData where
  toAddrs : List String
  subject : String
  body : String
  attachments : List Attachment
deriving DecidableEq, Repr

/-- The MIME message string `sendGmailEmail` builds: with attachments, a
multipart/mixed body assembled by an array join plus a `forEach` append of
one part per attachment and a closing boundary marker; without attachments,
a simple message. -/
def gmailMessage (d : EmailData) (boundary : String) : String :=
  if d.attachments.length > 0 then
    let base := joinWith "\n" [
      "To: " ++ joinWith ", " d.toAddrs,
      "Subject: " ++ d.subject,
      "MIME-Version: 1.0",
      "Content-Type: multipart/mixed; boundary=\x22" ++ boundary ++ "\x22",
      "",
      "--" ++ boundary,
      "Content-Type: text/html; charset=utf-8",
      "",
      d.body,
      ""]
    let withAtts := d.attachments.foldl (fun msg a => msg ++ joinWith "\n" [
      "--" ++ boundary,
      "Content-Type: " ++ a.contentType,
      "Content-Disposition: attachment; filename=\x22" ++ a.filename ++ "\x22",
      "Content-Transfer-Encoding: base64",
      "",
      a.content,
      ""]) base
    withAtts ++ "--" ++ boundary ++ "--"
  else
    joinWith "\n" [
      "To: " ++ joinWith ", " d.toAddrs,
      "Subject: " ++ d.subject,
      "Content-Type: text/html; charset=utf-8",
      "",
      d.body]

/-- `.replace(/=+$/, '')`: strip the maximal trailing run of `'='`. -/
def stripTrailingEq (cs : List Char) : List Char :=
  (cs.reverse.dropWhile (fun c => c = '=')).reverse

/-- The encoded `raw` field POSTed to the Gmail send endpoint:
`btoa(unescape(encodeURIComponent(message)))` then `'+' → '-'`, `'/' → '_'`
and trailing `'='` stripped. -/
def gmailRaw (msg : String) : List Char :=
  stripTrailingEq
    (((b64EncodeChunks (utf8Encode msg.data)).map plusToMinus).map slashToUnderscore)

/-- Concatenation of a list of strings. -/
def strConcat : List String → String
  | [] => ""
  | s :: rest => s ++ strConcat rest

/-- The header section of the multipart message, up to (excluding) the first
boundary line. -/
def mimeHead (d : EmailData) (boundary : String) : String :=
  joinWith "\n" ["To: " ++ joinWith ", " d.toAddrs, "Subject: " ++ d.subject,
    "MIME-Version: 1.0",
    "Content-Type: multipart/mixed; boundary=\x22" ++ boundary ++ "\x22", ""] ++ "\n"

/-- The body part of the multipart message, after its boundary line. -/
def mimeBodyPart (d : EmailData) : String :=
  joinWith "\n" ["Content-Type: text/html; charset=utf-8", "", d.body, ""]

/-- One attachment part of the multipart message, after its boundary line. -/
def mimeAttachmentRest (a : Attachment) : String :=
  joinWith "\n" ["Content-Type: " ++ a.contentType,
    "Content-Disposition: attachment; filename=\x22" ++ a.filename ++ "\x22",
    "Content-Transfer-Encoding: base64", "", a.content, ""]

/-! ### Popup authentication flow

`authenticateWithPopup` races three asynchronous sources: the cross-window
message handler, the 1-second closed-poll interval, and the 2-minute
timeout.  The embedding replays any interleaving of these as a list of
events folded over an explicit state; promise settlement is
first-transition-wins (`settle`). -/

/-- The `type` tag of a message received from the popup. -/
inductive MsgType
  | oauthSuccess
  | ssoAuthSuccess
  | oauthError
  | ssoAuthError
  | other
deriving DecidableEq, Repr

/-- The payload of a message event (`code` and `error` empty model absent
fields, matching JavaScript truthiness checks on them). -/
structure MsgData where
  type : MsgType
  code : String
  error : String
deriving DecidableEq, Repr

/-- How the promise returned by `authenticateWithPopup` settled. -/
inductive FlowOutcome
  | resolved (tokens : AuthTokens) (userInfo : UserInfo)
  | rejected (msg : String)
deriving DecidableEq, Repr

/-- One asynchronous event during the popup flow.  A `message` event carries
the oracle results of the token exchange and the user-info request that the
handler would perform on its success path (`none` models a throw). -/
inductive FlowEvent
  | message (origin : String) (data : MsgData)
      (exchangeResult : Option AuthTokens) (userInfoResult : Option UserInfo)
  | closeTick
  | userClose
  | timeoutFire
deriving Repr

/-- Static context of one `authenticateWithPopup` run. -/
structure FlowConfig where
  ownOrigin : String
  country : String
  provider : Provider
  serializeT : AuthTokens → String
  serializeU : UserInfo → String

/-- Mutable state of one `authenticateWithPopup` run: whether the message
listener and the closed-poll interval are still installed, whether the popup
window is closed, how the promise settled (if yet), and `localStorage`. -/
structure FlowState where
  listenerActive : Bool
  intervalActive : Bool
  popupClosed : Bool
  outcome : Option FlowOutcome
  storage : Storage

/-- Promise settlement: only the first resolution or rejection counts. -/
def settle (o : Option FlowOutcome) (new : FlowOutcome) : Option FlowOutcome :=
  match o with
  | none => some new
  | some r => some r

/-- State right after the popup opened and the listener and interval were
installed. -/
def initFlowState (σ : Storage) : FlowState :=
  ⟨true, true, false, none, σ⟩

/-- One step of the popup flow, following the source handlers: the message
handler ignores events when the listener was removed, ignores foreign
origins, stores tokens and user info and resolves only when the success-tagged
message carries a code and both the exchange and the user-info request
succeed, rejects on failures and on error-tagged messages, and ignores
unrecognized payloads; the closed-poll rejects with "Authentication
cancelled" when the popup is closed; the timeout fires only while the popup
is still open. -/
def flowStep (cfg : FlowConfig) (s : FlowState) : FlowEvent → FlowState
  | .message origin dta exch ui =>
    if s.listenerActive = false then s
    else if origin ≠ cfg.ownOrigin then s
    else if (dta.type = MsgType.oauthSuccess ∨ dta.type = MsgType.ssoAuthSuccess)
        ∧ dta.code ≠ "" then
      match exch with
      | none =>
        { s with listenerActive := false, popupClosed := true,
                 outcome := settle s.outcome (.rejected "Token exchange failed") }
      | some tokens =>
        match ui with
        | none =>
          { s with listenerActive := false, popupClosed := true,
                   outcome := settle s.outcome (.rejected "Failed to get user info") }
        | some info =>
          { s with
            storage := storeUserInfo cfg.serializeU cfg.country cfg.provider.str info
              (storeAuthTokens cfg.serializeT cfg.country cfg.provider.str tokens
                s.storage),
            listenerActive := false, popupClosed := true,
            outcome := settle s.outcome (.resolved tokens info) }
    else if dta.type = MsgType.oauthError ∨ dta.type = MsgType.ssoAuthError then
      { s with listenerActive := false, popupClosed := true,
               outcome := settle s.outcome (.rejected dta.error) }
    else s
  | .closeTick =>
    if s.intervalActive = true ∧ s.popupClosed = true then
      { s with intervalActive := false, listenerActive := false,
               outcome := settle s.outcome (.rejected "Authentication cancelled") }
    else s
  | .userClose => { s with popupClosed := true }
  | .timeoutFire =>
    if s.popupClosed = false then
      { s with intervalActive := false, listenerActive := false, popupClosed := true,
               outcome := settle s.outcome
                 (.rejected "Authentication timeout - please try again") }
    else s

/-- Fold a list of events over the flow state. -/
def runFlow (cfg : FlowConfig) (s : FlowState) (evs : List FlowEvent) : FlowState :=
  evs.foldl (flowStep cfg) s

/-- Events that the handlers ignore while the popup is still open: messages
from a foreign origin, messages with an unrecognized tag, success-tagged
messages without a code, and closed-poll ticks while the popup is open. -/
def ignorableEv (cfg : FlowConfig) : FlowEvent → Prop
  | .message origin dta _ _ =>
    origin ≠ cfg.ownOrigin ∨ dta.type = MsgType.other ∨
    ((dta.type = MsgType.oauthSuccess ∨ dta.type = MsgType.ssoAuthSuccess)
      ∧ dta.code = "")
  | .closeTick => True
  | _ => False

end OAuthEmail

namespace OAuthEmail

/-- Encode-side mapped digits are never `'='`, and decoding inverts the
mapped digit, for every 6-bit value. -/
theorem b64UrlChar_spec :
    ∀ n, n < 64 → b64UrlChar n ≠ '=' ∧ b64Value (fromUrlChar (b64UrlChar n)) = n := by
  decide

/-- `'='` is untouched by the encode-side replacements. -/
theorem urlmap_eq_char : slashToUnderscore (plusToMinus '=') = '=' := by decide

/-- `toBase64Url` of the empty list. -/
theorem toBase64Url_nil : toBase64Url [] = [] := rfl

/-- `toBase64Url` keeps a mapped digit character. -/
theorem toBase64Url_cons_digit (n : Nat) (h : n < 64) (l : List Char) :
    toBase64Url (b64Char n :: l) = b64UrlChar n :: toBase64Url l := by
  have e : slashToUnderscore (plusToMinus (b64Char n)) ≠ '=' := by
    simpa [b64UrlChar] using (b64UrlChar_spec n h).1
  simp [toBase64Url, b64UrlChar, e]

/-- `toBase64Url` drops a padding character. -/
theorem toBase64Url_cons_eq (l : List Char) : toBase64Url ('=' :: l) = toBase64Url l := by
  simp [toBase64Url, plusToMinus, slashToUnderscore]

/-- Decoding a full mapped quad recovers the three bytes' digit values and
continues with the tail. -/
theorem b64UrlDecode_quad (n1 n2 n3 n4 : Nat) (h1 : n1 < 64) (h2 : n2 < 64)
    (h3 : n3 < 64) (h4 : n4 < 64) (l : List Char) :
    b64UrlDecode (b64UrlChar n1 :: b64UrlChar n2 :: b64UrlChar n3 :: b64UrlChar n4 :: l)
      = (n1 * 4 + n2 / 16) :: (n2 % 16 * 16 + n3 / 4) ::
        (n3 % 4 * 64 + n4) :: b64UrlDecode l := by
  have v1 := (b64UrlChar_spec n1 h1).2
  have v2 := (b64UrlChar_spec n2 h2).2
  have v3 := (b64UrlChar_spec n3 h3).2
  have v4 := (b64UrlChar_spec n4 h4).2
  simp [b64UrlDecode, b64DecodeQuads, v1, v2, v3, v4]

/-- Decoding an unpadded 2-character tail group recovers one byte's digits. -/
theorem b64UrlDecode_two (n1 n2 : Nat) (h1 : n1 < 64) (h2 : n2 < 64) :
    b64UrlDecode [b64UrlChar n1, b64UrlChar n2] = [n1 * 4 + n2 / 16] := by
  have v1 := (b64UrlChar_spec n1 h1).2
  have v2 := (b64UrlChar_spec n2 h2).2
  simp [b64UrlDecode, b64DecodeQuads, v1, v2]

/-- Decoding an unpadded 3-character tail group recovers two bytes' digits. -/
theorem b64UrlDecode_three (n1 n2 n3 : Nat) (h1 : n1 < 64) (h2 : n2 < 64)
    (h3 : n3 < 64) :
    b64UrlDecode [b64UrlChar n1, b64UrlChar n2, b64UrlChar n3]
      = [n1 * 4 + n2 / 16, n2 % 16 * 16 + n3 / 4] := by
  have v1 := (b64UrlChar_spec n1 h1).2
  have v2 := (b64UrlChar_spec n2 h2).2
  have v3 := (b64UrlChar_spec n3 h3).2
  simp [b64UrlDecode, b64DecodeQuads, v1, v2, v3]

/-- Reversing the base64url transformation of a base64 encoding recovers
the original byte list. -/
theorem b64url_roundtrip : ∀ (bytes : List Nat), (∀ b ∈ bytes, b < 256) →
    b64UrlDecode (toBase64Url (b64EncodeChunks bytes)) = bytes
  | [], _ => rfl
  | [a], h => by
    have ha : a < 256 := h a (by simp)
    have h1 : a / 4 < 64 := by omega
    have h2 : a % 4 * 16 < 64 := by omega
    simp only [b64EncodeChunks]
    rw [toBase64Url_cons_digit _ h1, toBase64Url_cons_digit _ h2,
      toBase64Url_cons_eq, toBase64Url_cons_eq, toBase64Url_nil,
      b64UrlDecode_two _ _ h1 h2]
    have : a / 4 * 4 + a % 4 * 16 / 16 = a := by omega
    rw [this]
  | [a, b], h => by
    have ha : a < 256 := h a (by simp)
    have hb : b < 256 := h b (by simp)
    have h1 : a / 4 < 64 := by omega
    have h2 : a % 4 * 16 + b / 16 < 64 := by omega
    have h3 : b % 16 * 4 < 64 := by omega
    simp only [b64EncodeChunks]
    rw [toBase64Url_cons_digit _ h1, toBase64Url_cons_digit _ h2,
      toBase64Url_cons_digit _ h3, toBase64Url_cons_eq, toBase64Url_nil,
      b64UrlDecode_three _ _ _ h1 h2 h3]
    have e1 : a / 4 * 4 + (a % 4 * 16 + b / 16) / 16 = a := by omega
    have e2 : (a % 4 * 16 + b / 16) % 16 * 16 + b % 16 * 4 / 4 = b := by omega
    rw [e1, e2]
  | a :: b :: c :: rest, h => by
    have ha : a < 256 := h a (by simp)
    have hb : b < 256 := h b (by simp)
    have hc : c < 256 := h c (by simp)
    have h1 : a / 4 < 64 := by omega
    have h2 : a % 4 * 16 + b / 16 < 64 := by omega
    have h3 : b % 16 * 4 + c / 64 < 64 := by omega
    have h4 : c % 64 < 64 := by omega
    have ih := b64url_roundtrip rest (fun x hx => h x (by simp [hx]))
    simp only [b64EncodeChunks]
    rw [toBase64Url_cons_digit _ h1, toBase64Url_cons_digit _ h2,
      toBase64Url_cons_digit _ h3, toBase64Url_cons_digit _ h4,
      b64UrlDecode_quad _ _ _ _ h1 h2 h3 h4, ih]
    have e1 : a / 4 * 4 + (a % 4 * 16 + b / 16) / 16 = a := by omega
    have e2 : (a % 4 * 16 + b / 16) % 16 * 16 + (b % 16 * 4 + c / 64) / 4 = b := by
      omega
    have e3 : (b % 16 * 4 + c / 64) % 4 * 64 + c % 64 = c := by omega
    rw [e1, e2, e3]

/-- The two character replacements never produce `'+'` or `'/'`. -/
theorem slash_plus_ne (x : Char) :
    slashToUnderscore (plusToMinus x) ≠ '+' ∧ slashToUnderscore (plusToMinus x) ≠ '/' := by
  by_cases h1 : x = '+'
  · subst h1; decide
  · by_cases h2 : x = '/'
    · subst h2; decide
    · simp [plusToMinus, slashToUnderscore, h1, h2]

/-- The base64url postprocessing output never contains `'+'`, `'/'` or
`'='`. -/
theorem toBase64Url_clean (l : List Char) :
    '+' ∉ toBase64Url l ∧ '/' ∉ toBase64Url l ∧ '=' ∉ toBase64Url l := by
  refine ⟨?_, ?_, ?_⟩ <;> intro hmem
  · have hm := List.mem_of_mem_filter hmem
    simp only [List.mem_map] at hm
    obtain ⟨y, hy1, hy2⟩ := hm
    obtain ⟨x, hxl, hx⟩ := hy1
    exact (slash_plus_ne x).1 (by rw [hx]; exact hy2)
  · have hm := List.mem_of_mem_filter hmem
    simp only [List.mem_map] at hm
    obtain ⟨y, hy1, hy2⟩ := hm
    obtain ⟨x, hxl, hx⟩ := hy1
    exact (slash_plus_ne x).2 (by rw [hx]; exact hy2)
  · have := List.of_mem_filter hmem
    simp at this

/-- **C4** — Every generated PKCE challenge has a code verifier of 43–128
characters (here always 128) drawn from the unreserved charset, and a code
challenge free of `'+'`, `'/'` and `'='` whose base64url decoding is exactly
the SHA-256 digest of the verifier's UTF-8 bytes. -/
theorem pkce_challenge_spec :
    ∀ (draw : Nat → Nat) (sha256 : List Nat → List Nat),
      (∀ i, i < 128 → draw i < 66) →
      (∀ b ∈ sha256 (utf8Encode (generateRandomString draw 128)), b < 256) →
      43 ≤ (generatePKCEChallenge draw sha256).codeVerifier.length ∧
      (generatePKCEChallenge draw sha256).codeVerifier.length ≤ 128 ∧
      (∀ c ∈ (generatePKCEChallenge draw sha256).codeVerifier, c ∈ pkceCharset) ∧
      '+' ∉ (generatePKCEChallenge draw sha256).codeChallenge ∧
      '/' ∉ (generatePKCEChallenge draw sha256).codeChallenge ∧
      '=' ∉ (generatePKCEChallenge draw sha256).codeChallenge ∧
      b64UrlDecode (generatePKCEChallenge draw sha256).codeChallenge
        = sha256 (utf8Encode (generatePKCEChallenge draw sha256).codeVerifier) := by
  intro draw sha256 hdraw hdig
  have hlen : (generatePKCEChallenge draw sha256).codeVerifier.length = 128 := by
    simp [generatePKCEChallenge, generateRandomString]
  refine ⟨by omega, by omega, ?_, ?_, ?_, ?_, ?_⟩
  · intro c hc
    simp only [generatePKCEChallenge, generateRandomString, List.mem_map,
      List.mem_range] at hc
    obtain ⟨i, hi, hci⟩ := hc
    have hd : draw i < pkceCharset.length := by
      have := hdraw i hi
      simpa [show pkceCharset.length = 66 from rfl] using this
    rw [← hci]
    rw [show pkceCharset.getD (draw i) ' ' = pkceCharset[draw i] by
      simp [List.getD_eq_getElem?_getD, List.getElem?_eq_getElem hd]]
    exact List.getElem_mem hd
  · exact (toBase64Url_clean _).1
  · exact (toBase64Url_clean _).2.1
  · exact (toBase64Url_clean _).2.2
  · exact b64url_roundtrip _ hdig

/-- Witness for C4 at a concrete draw function and digest oracle. -/
theorem pkce_challenge_spec_witness :
    43 ≤ (generatePKCEChallenge (fun _ => 0) (fun _ => List.replicate 32 0)).codeVerifier.length ∧
    (generatePKCEChallenge (fun _ => 0) (fun _ => List.replicate 32 0)).codeVerifier.length ≤ 128 ∧
    (∀ c ∈ (generatePKCEChallenge (fun _ => 0) (fun _ => List.replicate 32 0)).codeVerifier,
      c ∈ pkceCharset) ∧
    '+' ∉ (generatePKCEChallenge (fun _ => 0) (fun _ => List.replicate 32 0)).codeChallenge ∧
    '/' ∉ (generatePKCEChallenge (fun _ => 0) (fun _ => List.replicate 32 0)).codeChallenge ∧
    '=' ∉ (generatePKCEChallenge (fun _ => 0) (fun _ => List.replicate 32 0)).codeChallenge ∧
    b64UrlDecode (generatePKCEChallenge (fun _ => 0) (fun _ => List.replicate 32 0)).codeChallenge
      = (fun _ => List.replicate 32 0)
          (utf8Encode (generatePKCEChallenge (fun _ => 0)
            (fun _ => List.replicate 32 0)).codeVerifier) :=
  pkce_challenge_spec (fun _ => 0) (fun _ => List.replicate 32 0)
    (fun _ _ => show (0 : Nat) < 66 by decide) (by simp)

/-- **C3** — A blank or placeholder client id makes `getAuthUrl` fail with
the configuration error, with zero calls to the random source and the
manager (hence the PKCE slot) untouched. -/
theorem authUrl_config_error_before_randomness :
    ∀ (m : Manager) (clientId : String) (scopes : List String)
      (redirectUri state : String) (draw : Nat → Nat) (sha256 : List Nat → List Nat),
      (clientId = "" ∨ jsIncludes clientId "your-" = true) →
      (∃ e, (getAuthUrl m clientId scopes redirectUri draw sha256 state).result
        = .error e) ∧
      (getAuthUrl m clientId scopes redirectUri draw sha256 state).randomDraws = 0 ∧
      (getAuthUrl m clientId scopes redirectUri draw sha256 state).manager = m := by
  intro m clientId scopes redirectUri state draw sha256 h
  have hcond : clientId = "" ∨ jsIncludes clientId "your-" = true ∨ clientId = "" := by
    tauto
  unfold getAuthUrl
  rw [if_pos hcond]
  exact ⟨⟨_, rfl⟩, rfl, rfl⟩

/-- Witness for C3 at the placeholder client id "your-client-id". -/
theorem authUrl_config_error_before_randomness_witness :
    (∃ e, (getAuthUrl (createOAuthManager Provider.google) "your-client-id" []
      "https://app/auth/callback" (fun _ => 0) (fun _ => []) "st").result = .error e) ∧
    (getAuthUrl (createOAuthManager Provider.google) "your-client-id" []
      "https://app/auth/callback" (fun _ => 0) (fun _ => []) "st").randomDraws = 0 ∧
    (getAuthUrl (createOAuthManager Provider.google) "your-client-id" []
      "https://app/auth/callback" (fun _ => 0) (fun _ => []) "st").manager
      = createOAuthManager Provider.google :=
  authUrl_config_error_before_randomness (createOAuthManager Provider.google)
    "your-client-id" [] "https://app/auth/callback" "st" (fun _ => 0) (fun _ => [])
    (Or.inr (by decide))

/-- **C2, counterexample** — the claim "the PKCE challenge is consumed
exactly once by `exchangeCodeForTokens`" fails on the code: the challenge is
never cleared after an exchange, so on a concrete manager a second
`exchangeCodeForTokens` call still finds the same live challenge and sends a
second token request instead of failing with the missing-challenge error. -/
theorem pkce_consumed_once_counterexample :
    let a := getAuthUrl (createOAuthManager Provider.microsoft) "cid" [] "uri"
      (fun _ => 0) (fun _ => []) "st"
    let e1 := exchangeCodeForTokens 0 a.manager "code" (some ⟨"t1", none, 10⟩)
    let e2 := exchangeCodeForTokens 0 e1.manager "code" (some ⟨"t2", none, 10⟩)
    e1.requestSent = true ∧ e1.manager.pkceChallenge ≠ none ∧
    e2.requestSent = true ∧ e2.result ≠ .error missingChallengeMsg := by
  refine ⟨by decide, by decide, by decide, fun h => Except.noConfusion h⟩

/-- **C2, amended** — `exchangeCodeForTokens` fails deterministically with
the missing-challenge error, without sending any token request and without
changing the manager, exactly when no PKCE challenge is installed; when a
challenge is installed (by `getAuthUrl`) an exchange sends a request, and
the challenge is never cleared, so it is reused by later exchanges rather
than being consumed exactly once. -/
theorem pkce_exchange_amended :
    ∀ (now : Nat) (m : Manager) (code : String) (resp : Option RefreshResp),
      (m.pkceChallenge = none →
        exchangeCodeForTokens now m code resp
          = ⟨.error missingChallengeMsg, m, false⟩) ∧
      (exchangeCodeForTokens now m code resp).manager.pkceChallenge
        = m.pkceChallenge ∧
      (m.pkceChallenge ≠ none →
        (exchangeCodeForTokens now m code resp).requestSent = true) := by
  intro now m code resp
  refine ⟨?_, ?_, ?_⟩
  · intro h
    unfold exchangeCodeForTokens
    rw [h]
  · unfold exchangeCodeForTokens
    cases hp : m.pkceChallenge <;> cases resp <;> simp [hp]
  · intro h
    unfold exchangeCodeForTokens
    cases hp : m.pkceChallenge with
    | none => exact absurd hp h
    | some ch => cases resp <;> simp

/-- Witness for the amended C2: a fresh manager fails the exchange with the
missing-challenge error, and a manager holding a challenge sends the
request. -/
theorem pkce_exchange_amended_witness :
    exchangeCodeForTokens 5 (createOAuthManager Provider.google) "c" none
      = ⟨.error missingChallengeMsg, createOAuthManager Provider.google, false⟩ ∧
    (exchangeCodeForTokens 5 ⟨Provider.google, some ⟨['a'], ['b']⟩⟩ "c" none).requestSent
      = true :=
  ⟨(pkce_exchange_amended 5 (createOAuthManager Provider.google) "c" none).1 rfl,
   (pkce_exchange_amended 5 ⟨Provider.google, some ⟨['a'], ['b']⟩⟩ "c" none).2.2
     (by simp)⟩

/-- A `foldl` that appends a rendered part per element equals the initial
string followed by the concatenation of the rendered parts. -/
theorem foldl_append_string {α : Type} (f : α → String) :
    ∀ (l : List α) (init : String),
      l.foldl (fun m a => m ++ f a) init = init ++ strConcat (l.map f)
  | [], init => by simp [strConcat]
  | x :: xs, init => by
    simp only [List.foldl_cons, List.map_cons, strConcat]
    rw [foldl_append_string f xs (init ++ f x), String.append_assoc]

/-- Members survive the trailing-padding strip. -/
theorem mem_stripTrailingEq {c : Char} {cs : List Char}
    (h : c ∈ stripTrailingEq cs) : c ∈ cs := by
  unfold stripTrailingEq at h
  rw [List.mem_reverse] at h
  have h2 := (List.dropWhile_sublist (fun c => c = '=')).subset h
  rwa [List.mem_reverse] at h2

/-- The head of a `dropWhile` result never satisfies the predicate. -/
theorem head?_dropWhile_false (p : Char → Bool) :
    ∀ (l : List Char) (a : Char), (l.dropWhile p).head? = some a → p a = false
  | [], a => by simp [List.dropWhile]
  | x :: xs, a => by
    by_cases hp : p x
    · rw [List.dropWhile_cons_of_pos hp]
      exact head?_dropWhile_false p xs a
    · rw [List.dropWhile_cons_of_neg (by simpa using hp)]
      intro h
      simp only [List.head?_cons, Option.some.injEq] at h
      subst h
      simpa using hp

/-- After stripping trailing padding, the last character is never `'='`. -/
theorem stripTrailingEq_no_trailing (cs : List Char) :
    (stripTrailingEq cs).getLast? ≠ some '=' := by
  unfold stripTrailingEq
  rw [List.getLast?_reverse]
  intro h
  have := head?_dropWhile_false (fun c => c = '=') cs.reverse '=' h
  simp at this

/-- Characters surviving the two replacements are never `'+'` or `'/'`. -/
theorem mapped_no_plus_slash (l : List Char) {c : Char}
    (h : c ∈ (l.map plusToMinus).map slashToUnderscore) : c ≠ '+' ∧ c ≠ '/' := by
  simp only [List.mem_map] at h
  obtain ⟨y, hy1, hy2⟩ := h
  obtain ⟨x, hx1, hx2⟩ := hy1
  rw [← hy2, ← hx2]
  exact slash_plus_ne x

/-- **C7** — With a non-empty attachment list the Gmail MIME message
factors as the header section, one boundary line before the body part, the
same boundary line immediately before each attachment part, and the closing
boundary marker; and the encoded `raw` payload contains no `'+'`, no `'/'`
and no trailing `'='`. -/
theorem gmail_mime_structure :
    ∀ (d : EmailData) (boundary : String), d.attachments ≠ [] →
      gmailMessage d boundary
        = mimeHead d boundary ++ ("--" ++ boundary ++ "\n") ++ mimeBodyPart d ++
          strConcat (d.attachments.map
            (fun a => "--" ++ boundary ++ "\n" ++ mimeAttachmentRest a)) ++
          ("--" ++ boundary ++ "--") ∧
      '+' ∉ gmailRaw (gmailMessage d boundary) ∧
      '/' ∉ gmailRaw (gmailMessage d boundary) ∧
      (gmailRaw (gmailMessage d boundary)).getLast? ≠ some '=' := by
  intro d boundary hA
  have hlen : d.attachments.length > 0 := List.length_pos.mpr hA
  refine ⟨?_, ?_, ?_, ?_⟩
  · unfold gmailMessage
    rw [if_pos hlen]
    simp only [foldl_append_string, joinWith, mimeHead, mimeBodyPart, mimeAttachmentRest]
    have hfix : ∀ s : String, "\x22\n" ++ ("\n" ++ s) = "\x22\n\n" ++ s := by
      intro s
      have hlit : ("\x22\n" ++ "\n" : String) = "\x22\n\n" := by decide
      rw [← String.append_assoc, hlit]
    simp [String.append_assoc, hfix]
  · intro hmem
    exact (mapped_no_plus_slash _ (mem_stripTrailingEq hmem)).1 rfl
  · intro hmem
    exact (mapped_no_plus_slash _ (mem_stripTrailingEq hmem)).2 rfl
  · exact stripTrailingEq_no_trailing _

/-- Witness for C7 at a concrete message with two attachments. -/
theorem gmail_mime_structure_witness :
    '+' ∉ gmailRaw (gmailMessage
      ⟨["a@b.c"], "Subj", "Hi", [⟨"f.pdf", "QUJD", "application/pdf"⟩,
        ⟨"g.txt", "REVG", "text/plain"⟩]⟩ "boundary_x1") ∧
    (gmailRaw (gmailMessage
      ⟨["a@b.c"], "Subj", "Hi", [⟨"f.pdf", "QUJD", "application/pdf"⟩,
        ⟨"g.txt", "REVG", "text/plain"⟩]⟩ "boundary_x1")).getLast? ≠ some '=' := by
  have h := gmail_mime_structure
    ⟨["a@b.c"], "Subj", "Hi", [⟨"f.pdf", "QUJD", "application/pdf"⟩,
      ⟨"g.txt", "REVG", "text/plain"⟩]⟩ "boundary_x1" (by simp)
  exact ⟨h.2.1, h.2.2.2⟩

/-- While the popup is open and nothing has settled, ignorable events leave
the freshly initialized flow state untouched. -/
theorem flowStep_ignorable (cfg : FlowConfig) (σ : Storage) (e : FlowEvent)
    (h : ignorableEv cfg e) : flowStep cfg (initFlowState σ) e = initFlowState σ := by
  cases e with
  | message origin dta exch ui =>
    simp only [ignorableEv] at h
    unfold flowStep
    rcases h with h | h | h
    · simp [initFlowState, h]
    · by_cases ho : origin = cfg.ownOrigin
      · simp [initFlowState, ho, h]
      · simp [initFlowState, ho]
    · obtain ⟨ht, hc⟩ := h
      by_cases ho : origin = cfg.ownOrigin
      · rcases ht with ht | ht <;> simp [initFlowState, ho, ht, hc]
      · simp [initFlowState, ho]
  | closeTick => simp [flowStep, initFlowState]
  | userClose => exact h.elim
  | timeoutFire => exact h.elim

/-- A run of ignorable events leaves the initial flow state untouched. -/
theorem runFlow_ignorable (cfg : FlowConfig) (σ : Storage) :
    ∀ (evs : List FlowEvent), (∀ e ∈ evs, ignorableEv cfg e) →
      runFlow cfg (initFlowState σ) evs = initFlowState σ
  | [], _ => rfl
  | e :: evs, h => by
    have h1 : ignorableEv cfg e := h e (by simp)
    have h2 : ∀ x ∈ evs, ignorableEv cfg x := fun x hx => h x (by simp [hx])
    unfold runFlow
    rw [List.foldl_cons, flowStep_ignorable cfg σ e h1]
    exact runFlow_ignorable cfg σ evs h2

/-- Once both the listener and the interval are torn down and the popup is
closed, no further event changes the flow state. -/
theorem flowStep_settled (cfg : FlowConfig) (s : FlowState)
    (h1 : s.listenerActive = false) (h2 : s.intervalActive = false)
    (h3 : s.popupClosed = true) (e : FlowEvent) : flowStep cfg s e = s := by
  cases e with
  | message o dta ex ui => simp [flowStep, h1]
  | closeTick => simp [flowStep, h2]
  | userClose => cases s; simp_all [flowStep]
  | timeoutFire => simp [flowStep, h3]

/-- `flowStep_settled` extended to whole runs. -/
theorem runFlow_settled (cfg : FlowConfig) (s : FlowState)
    (h1 : s.listenerActive = false) (h2 : s.intervalActive = false)
    (h3 : s.popupClosed = true) :
    ∀ (evs : List FlowEvent), runFlow cfg s evs = s
  | [] => rfl
  | e :: evs => by
    unfold runFlow
    rw [List.foldl_cons, flowStep_settled cfg s h1 h2 h3 e]
    exact runFlow_settled cfg s h1 h2 h3 evs

/-- The only step that can change storage is a message whose exchange and
user-info oracles both succeed. -/
theorem flowStep_storage (cfg : FlowConfig) (s : FlowState) (e : FlowEvent)
    (h : (flowStep cfg s e).storage ≠ s.storage) :
    ∃ o dta t u, e = FlowEvent.message o dta (some t) (some u) := by
  cases e with
  | message o dta ex ui =>
    cases ex with
    | none =>
      exfalso
      apply h
      simp only [flowStep]
      split_ifs <;> rfl
    | some t =>
      cases ui with
      | none =>
        exfalso
        apply h
        simp only [flowStep]
        split_ifs <;> rfl
      | some u => exact ⟨o, dta, t, u, rfl⟩
  | closeTick =>
    exfalso
    apply h
    simp only [flowStep]
    split_ifs <;> rfl
  | userClose => exact absurd rfl h
  | timeoutFire =>
    exfalso
    apply h
    simp only [flowStep]
    split_ifs <;> rfl

/-- **C5** — In every run where the popup's closed flag is raised before any
terminal message (after any number of ignorable events), the flow rejects
with "Authentication cancelled", removes its listener, leaves storage
untouched (so `getValidAccessToken` for an identity with no stored tokens
still returns null), every later event has no observable effect, and —
generally — a step writes storage only when both the token exchange and the
user-info request succeeded. -/
theorem popup_cancel_no_store :
    ∀ (cfg : FlowConfig) (σ : Storage) (ign rest : List FlowEvent),
      (∀ e ∈ ign, ignorableEv cfg e) →
      (runFlow cfg (initFlowState σ)
          (ign ++ FlowEvent.userClose :: FlowEvent.closeTick :: rest)).outcome
        = some (FlowOutcome.rejected "Authentication cancelled") ∧
      (runFlow cfg (initFlowState σ)
          (ign ++ FlowEvent.userClose :: FlowEvent.closeTick :: rest)).listenerActive
        = false ∧
      (runFlow cfg (initFlowState σ)
          (ign ++ FlowEvent.userClose :: FlowEvent.closeTick :: rest)).storage = σ ∧
      (σ (authKey cfg.country cfg.provider.str) = none →
        ∀ parse serialize now clientId resp,
          (getValidAccessToken parse serialize now clientId resp cfg.country
            cfg.provider
            (runFlow cfg (initFlowState σ)
              (ign ++ FlowEvent.userClose :: FlowEvent.closeTick :: rest)).storage).1
            = none) ∧
      (∀ (s : FlowState) (e : FlowEvent), (flowStep cfg s e).storage ≠ s.storage →
        ∃ o dta t u, e = FlowEvent.message o dta (some t) (some u)) := by
  intro cfg σ ign rest hign
  have hrun : runFlow cfg (initFlowState σ)
      (ign ++ FlowEvent.userClose :: FlowEvent.closeTick :: rest)
      = ⟨false, false, true, some (.rejected "Authentication cancelled"), σ⟩ := by
    unfold runFlow
    rw [List.foldl_append]
    have hpre : List.foldl (flowStep cfg) (initFlowState σ) ign = initFlowState σ :=
      runFlow_ignorable cfg σ ign hign
    rw [hpre, List.foldl_cons, List.foldl_cons]
    have hstep : flowStep cfg (flowStep cfg (initFlowState σ) FlowEvent.userClose)
        FlowEvent.closeTick
        = ⟨false, false, true, some (.rejected "Authentication cancelled"), σ⟩ := by
      simp [flowStep, initFlowState, settle]
    rw [hstep]
    exact runFlow_settled cfg _ rfl rfl rfl rest
  refine ⟨by rw [hrun], by rw [hrun], by rw [hrun], ?_, flowStep_storage cfg⟩
  intro hkey parse serialize now clientId resp
  rw [hrun]
  simp [getValidAccessToken, getStoredAuthTokens, getStoredAuthTokensE, hkey]

/-- Witness for C5: a concrete run with one foreign-origin message before
the user closes the popup, and a late timeout event after cancellation. -/
theorem popup_cancel_no_store_witness :
    (runFlow ⟨"https://app.example", "SG", Provider.google, fun _ => "T", fun _ => "U"⟩
      (initFlowState (fun _ => none))
      ([FlowEvent.message "https://evil.example" ⟨MsgType.oauthSuccess, "abc", ""⟩
          none none] ++
        FlowEvent.userClose :: FlowEvent.closeTick :: [FlowEvent.timeoutFire])).outcome
      = some (FlowOutcome.rejected "Authentication cancelled") ∧
    (runFlow ⟨"https://app.example", "SG", Provider.google, fun _ => "T", fun _ => "U"⟩
      (initFlowState (fun _ => none))
      ([FlowEvent.message "https://evil.example" ⟨MsgType.oauthSuccess, "abc", ""⟩
          none none] ++
        FlowEvent.userClose :: FlowEvent.closeTick :: [FlowEvent.timeoutFire])).storage
      = (fun _ => none) ∧
    (getValidAccessToken (fun _ => Except.error "bad") (fun _ => "s") 0 none none
      "SG" Provider.google
      (runFlow ⟨"https://app.example", "SG", Provider.google, fun _ => "T", fun _ => "U"⟩
        (initFlowState (fun _ => none))
        ([FlowEvent.message "https://evil.example" ⟨MsgType.oauthSuccess, "abc", ""⟩
            none none] ++
          FlowEvent.userClose :: FlowEvent.closeTick :: [FlowEvent.timeoutFire])).storage).1
      = none := by
  have h := popup_cancel_no_store
    ⟨"https://app.example", "SG", Provider.google, fun _ => "T", fun _ => "U"⟩
    (fun _ => none)
    [FlowEvent.message "https://evil.example" ⟨MsgType.oauthSuccess, "abc", ""⟩
      none none]
    [FlowEvent.timeoutFire]
    (by
      intro e he
      simp only [List.mem_singleton] at he
      subst he
      exact Or.inl (by decide))
  exact ⟨h.1, h.2.2.1, h.2.2.2.1 rfl (fun _ => Except.error "bad") (fun _ => "s")
    0 none none⟩

/-- **C6** — A message event whose origin differs from the opener's own
origin is ignored entirely: the flow state (settlement, listener, interval,
popup flag and storage) is unchanged regardless of the payload. -/
theorem foreign_origin_ignored :
    ∀ (cfg : FlowConfig) (s : FlowState) (origin : String) (dta : MsgData)
      (exch : Option AuthTokens) (ui : Option UserInfo),
      origin ≠ cfg.ownOrigin →
      flowStep cfg s (FlowEvent.message origin dta exch ui) = s := by
  intro cfg s origin dta exch ui h
  unfold flowStep
  by_cases hl : s.listenerActive = false
  · simp [hl]
  · simp [hl, h]

/-- Witness for C6 at a concrete state and foreign message. -/
theorem foreign_origin_ignored_witness :
    flowStep ⟨"https://app.example", "SG", Provider.microsoft, fun _ => "T", fun _ => "U"⟩
      (initFlowState (fun _ => none))
      (FlowEvent.message "https://evil.example" ⟨MsgType.oauthSuccess, "abc", ""⟩
        (some ⟨"tok", none, 1, 2⟩) (some ⟨"i", "e", "n", none⟩))
      = initFlowState (fun _ => none) :=
  foreign_origin_ignored
    ⟨"https://app.example", "SG", Provider.microsoft, fun _ => "T", fun _ => "U"⟩
    (initFlowState (fun _ => none)) "https://evil.example"
    ⟨MsgType.oauthSuccess, "abc", ""⟩ (some ⟨"tok", none, 1, 2⟩)
    (some ⟨"i", "e", "n", none⟩) (by decide)

/-- The data of `authKey` factored around its literal prefix. -/
theorem authKey_data (c p : String) :
    (authKey c p).data = ("email_auth_" : String).data ++ (c.data ++ ('_' :: p.data)) := by
  simp [authKey, String.data_append, List.append_assoc,
    show ("_" : String).data = ['_'] from rfl]

/-- The data of `userInfoKey` factored around its literal prefix. -/
theorem userInfoKey_data (c p : String) :
    (userInfoKey c p).data
      = ("email_userinfo_" : String).data ++ (c.data ++ ('_' :: p.data)) := by
  simp [userInfoKey, String.data_append, List.append_assoc,
    show ("_" : String).data = ['_'] from rfl]

/-- Lists with distinct takes of a common length are distinct appends. -/
theorem take_append_ne (p₁ p₂ r₁ r₂ : List Char) (n : Nat)
    (h₁ : n ≤ p₁.length) (h₂ : n ≤ p₂.length) (hne : p₁.take n ≠ p₂.take n) :
    p₁ ++ r₁ ≠ p₂ ++ r₂ := by
  intro h
  apply hne
  have ht := congrArg (List.take n) h
  rw [List.take_append_eq_append_take, List.take_append_eq_append_take,
    Nat.sub_eq_zero_of_le h₁, Nat.sub_eq_zero_of_le h₂] at ht
  simpa using ht

/-- A token-record key is never a user-info key (the literal key heads
differ), regardless of the countries and providers involved. -/
theorem authKey_ne_userInfoKey (c p c' p' : String) : authKey c p ≠ userInfoKey c' p' := by
  intro h
  have hd : (authKey c p).data = (userInfoKey c' p').data := by rw [h]
  rw [authKey_data, userInfoKey_data] at hd
  exact take_append_ne _ _ _ _ 7 (by decide) (by decide) (by decide) hd

/-- `authKey` is injective on (country, provider) pairs when the provider is
one of the two supported ones. -/
theorem authKey_inj {c c' : String} {p p' : Provider}
    (h : authKey c p.str = authKey c' p'.str) : c = c' ∧ p = p' := by
  have hd : (authKey c p.str).data = (authKey c' p'.str).data := by rw [h]
  rw [authKey_data, authKey_data] at hd
  have hd2 := List.append_cancel_left hd
  cases p <;> cases p' <;> simp only [Provider.str] at hd2
  case google.google =>
    refine ⟨?_, rfl⟩
    have hc := List.append_cancel_right hd2
    cases c; cases c'; simp_all
  case microsoft.microsoft =>
    refine ⟨?_, rfl⟩
    have hc := List.append_cancel_right hd2
    cases c; cases c'; simp_all
  case google.microsoft =>
    exfalso
    have hl := congrArg List.getLast? hd2
    rw [List.getLast?_append_of_ne_nil _ (by simp),
      List.getLast?_append_of_ne_nil _ (by simp)] at hl
    simp at hl
  case microsoft.google =>
    exfalso
    have hl := congrArg List.getLast? hd2
    rw [List.getLast?_append_of_ne_nil _ (by simp),
      List.getLast?_append_of_ne_nil _ (by simp)] at hl
    simp at hl

/-- `userInfoKey` is injective on (country, provider) pairs when the provider
is one of the two supported ones. -/
theorem userInfoKey_inj {c c' : String} {p p' : Provider}
    (h : userInfoKey c p.str = userInfoKey c' p'.str) : c = c' ∧ p = p' := by
  have hd : (userInfoKey c p.str).data = (userInfoKey c' p'.str).data := by rw [h]
  rw [userInfoKey_data, userInfoKey_data] at hd
  have hd2 := List.append_cancel_left hd
  cases p <;> cases p' <;> simp only [Provider.str] at hd2
  case google.google =>
    refine ⟨?_, rfl⟩
    have hc := List.append_cancel_right hd2
    cases c; cases c'; simp_all
  case microsoft.microsoft =>
    refine ⟨?_, rfl⟩
    have hc := List.append_cancel_right hd2
    cases c; cases c'; simp_all
  case google.microsoft =>
    exfalso
    have hl := congrArg List.getLast? hd2
    rw [List.getLast?_append_of_ne_nil _ (by simp),
      List.getLast?_append_of_ne_nil _ (by simp)] at hl
    simp at hl
  case microsoft.google =>
    exfalso
    have hl := congrArg List.getLast? hd2
    rw [List.getLast?_append_of_ne_nil _ (by simp),
      List.getLast?_append_of_ne_nil _ (by simp)] at hl
    simp at hl

/-- **C9** — For distinct identity keys (country, provider) ≠ (country',
provider') with providers in \x7bgoogle, microsoft\x7d, the four storage
operations applied to the first key leave both records of the second key
unchanged; and `clearAuthTokens` for a key deletes both the token record and
the user-info record of that same key. -/
theorem storage_identity_frame :
    ∀ (c c' : String) (p p' : Provider), (c, p) ≠ (c', p') →
    ∀ (serT : AuthTokens → String) (serU : UserInfo → String)
      (t : AuthTokens) (u : UserInfo) (ls : Storage),
      (storeAuthTokens serT c p.str t ls) (authKey c' p'.str) = ls (authKey c' p'.str) ∧
      (storeAuthTokens serT c p.str t ls) (userInfoKey c' p'.str) = ls (userInfoKey c' p'.str) ∧
      (storeUserInfo serU c p.str u ls) (authKey c' p'.str) = ls (authKey c' p'.str) ∧
      (storeUserInfo serU c p.str u ls) (userInfoKey c' p'.str) = ls (userInfoKey c' p'.str) ∧
      (clearAuthTokens c p.str ls) (authKey c' p'.str) = ls (authKey c' p'.str) ∧
      (clearAuthTokens c p.str ls) (userInfoKey c' p'.str) = ls (userInfoKey c' p'.str) ∧
      (clearUserInfo c p.str ls) (authKey c' p'.str) = ls (authKey c' p'.str) ∧
      (clearUserInfo c p.str ls) (userInfoKey c' p'.str) = ls (userInfoKey c' p'.str) ∧
      (clearAuthTokens c p.str ls) (authKey c p.str) = none ∧
      (clearAuthTokens c p.str ls) (userInfoKey c p.str) = none := by
  intro c c' p p' h serT serU t u ls
  have h1 : authKey c' p'.str ≠ authKey c p.str := by
    intro he
    obtain ⟨hc, hp⟩ := authKey_inj he
    exact h (by rw [hc, hp])
  have h2 : userInfoKey c' p'.str ≠ userInfoKey c p.str := by
    intro he
    obtain ⟨hc, hp⟩ := userInfoKey_inj he
    exact h (by rw [hc, hp])
  have h3 : userInfoKey c' p'.str ≠ authKey c p.str :=
    (authKey_ne_userInfoKey c p.str c' p'.str).symm
  have h4 : authKey c' p'.str ≠ userInfoKey c p.str :=
    authKey_ne_userInfoKey c' p'.str c p.str
  have h5 : authKey c p.str ≠ userInfoKey c p.str :=
    authKey_ne_userInfoKey c p.str c p.str
  refine ⟨?_, ?_, ?_, ?_, ?_, ?_, ?_, ?_, ?_, ?_⟩ <;>
    simp [storeAuthTokens, storeUserInfo, clearAuthTokens, clearUserInfo,
      h1, h2, h3, h4, h5]

/-- Witness for C9 at two concrete identities sharing the provider. -/
theorem storage_identity_frame_witness :
    (storeAuthTokens (fun _ => "t") "SG" Provider.google.str ⟨"a", none, 1, 2⟩
        (fun _ => some "old")) (authKey "MY" Provider.google.str) = some "old" ∧
    (clearAuthTokens "SG" Provider.google.str (fun _ => some "old"))
        (authKey "SG" Provider.google.str) = none := by
  have h := storage_identity_frame "SG" "MY" Provider.google Provider.google
    (by decide) (fun _ => "t") (fun _ => "u") ⟨"a", none, 1, 2⟩
    ⟨"i", "e", "n", none⟩ (fun _ => some "old")
  exact ⟨h.1, h.2.2.2.2.2.2.2.2.1⟩

/-- **C10** — If a token is expired then it is also expiring soon (the
5-minute predicate is weaker than outright expiry), and the boundary instant
`now = expiresAt` already counts as expired; both predicates are threshold
comparisons on `expiresAt`. -/
theorem expired_implies_expiringSoon :
    ∀ (now : Nat) (t : AuthTokens),
      (isTokenExpired now t = true → isTokenExpiringSoon now t = true) ∧
      isTokenExpired t.expiresAt t = true := by
  intro now t
  constructor
  · intro h
    simp only [isTokenExpired, decide_eq_true_eq] at h
    simp only [isTokenExpiringSoon, decide_eq_true_eq]
    omega
  · simp [isTokenExpired]

/-- Witness for C10 at a concrete token and instant. -/
theorem expired_implies_expiringSoon_witness :
    isTokenExpiringSoon 1000 ⟨"tok", none, 1, 1000⟩ = true ∧
    isTokenExpired 500 ⟨"tok", none, 1, 500⟩ = true :=
  ⟨(expired_implies_expiringSoon 1000 ⟨"tok", none, 1, 1000⟩).1 (by decide),
   (expired_implies_expiringSoon 250 ⟨"tok", none, 1, 500⟩).2⟩

/-- **C8** — The token-store reads never throw: for every key and stored
payload the `Except`-level computations return `ok`; an absent record yields
`none`, and a payload on which the parser fails is treated as absent and also
yields `none` — for both the token record and the user-info record. -/
theorem storedReads_never_throw :
    ∀ (parseT : String → Except String AuthTokens)
      (parseU : String → Except String UserInfo)
      (ls : Storage) (country provider : String),
      (∃ r, getStoredAuthTokensE parseT ls country provider = .ok r) ∧
      (∃ r, getStoredUserInfoE parseU ls country provider = .ok r) ∧
      (ls (authKey country provider) = none →
        getStoredAuthTokensE parseT ls country provider = .ok none) ∧
      (ls (userInfoKey country provider) = none →
        getStoredUserInfoE parseU ls country provider = .ok none) ∧
      (∀ s e, ls (authKey country provider) = some s → parseT s = .error e →
        getStoredAuthTokensE parseT ls country provider = .ok none) ∧
      (∀ s e, ls (userInfoKey country provider) = some s → parseU s = .error e →
        getStoredUserInfoE parseU ls country provider = .ok none) := by
  intro parseT parseU ls country provider
  refine ⟨?_, ?_, ?_, ?_, ?_, ?_⟩
  · unfold getStoredAuthTokensE
    rcases h : ls (authKey country provider) with _ | s
    · exact ⟨none, rfl⟩
    · rcases hp : parseT s with e | t
      · exact ⟨none, by simp [hp]⟩
      · exact ⟨some t, by simp [hp]⟩
  · unfold getStoredUserInfoE
    rcases h : ls (userInfoKey country provider) with _ | s
    · exact ⟨none, rfl⟩
    · rcases hp : parseU s with e | u
      · exact ⟨none, by simp [hp]⟩
      · exact ⟨some u, by simp [hp]⟩
  · intro h; unfold getStoredAuthTokensE; rw [h]
  · intro h; unfold getStoredUserInfoE; rw [h]
  · intro s e hs hp; unfold getStoredAuthTokensE; rw [hs]; simp [hp]
  · intro s e hs hp; unfold getStoredUserInfoE; rw [hs]; simp [hp]

/-- **C1** — `getValidAccessToken` behaves, for every (country, provider)
pair, storage, clock instant, environment client id and refresh-network
outcome, exactly per the specified algorithm: absent tokens give null; an
unexpired token is returned unchanged without touching storage; an expired
Microsoft token with a refresh token is refreshed, persisting the new tokens
(old refresh token kept when the response carries none) and returning the
new access token on success, and clearing the identity's tokens and
returning null on failure; every other expired token is cleared and null is
returned. -/
theorem getValidAccessToken_follows_spec :
    ∀ (parse : String → Except String AuthTokens) (serialize : AuthTokens → String)
      (now : Nat) (clientId : Option String) (resp : Option RefreshResp)
      (country : String) (provider : Provider) (ls : Storage),
      getValidAccessToken parse serialize now clientId resp country provider ls
        = getValidAccessTokenSpec parse serialize now clientId resp country provider ls := by
  intro parse serialize now clientId resp country provider ls
  unfold getValidAccessToken getValidAccessTokenSpec refreshMicrosoftToken
  cases hG : getStoredAuthTokens parse ls country provider.str with
  | none => rfl
  | some tokens =>
    by_cases hE : isTokenExpired now tokens = false
    · simp [hE]
    · by_cases hM : provider = Provider.microsoft ∧ jsTruthy tokens.refreshToken = true
      · obtain ⟨hMp, hMr⟩ := hM
        subst hMp
        have jnone : jsTruthy (none : Option String) = false := rfl
        have jempty : jsTruthy (some "") = false := by decide
        cases clientId with
        | none => cases resp <;> simp [hE, hMr, jnone]
        | some cid =>
          by_cases hc : cid = ""
          · subst hc
            cases resp <;> simp [hE, hMr, jempty]
          · have jcid : jsTruthy (some cid) = true := by simp [jsTruthy, hc]
            cases resp with
            | none => simp [hE, hMr, jcid]
            | some d => simp [hE, hMr, jcid, hc]
      · simp [hE, hM]

/-- Witness for C8: a concrete store holding one malformed token payload and
nothing else, with a parser that always fails. -/
theorem storedReads_never_throw_witness :
    getStoredAuthTokensE (fun _ => .error "bad json")
      (fun k => if k = authKey "SG" "google" then some "garbage" else none)
      "SG" "google" = .ok none ∧
    getStoredUserInfoE (fun _ => .error "bad json")
      (fun k => if k = authKey "SG" "google" then some "garbage" else none)
      "SG" "google" = .ok none := by
  refine ⟨?_, ?_⟩
  · exact (storedReads_never_throw (fun _ => .error "bad json")
      (fun _ => .error "bad json")
      (fun k => if k = authKey "SG" "google" then some "garbage" else none)
      "SG" "google").2.2.2.2.1 "garbage" "bad json" (by decide) rfl
  · exact (storedReads_never_throw (fun _ => .error "bad json")
      (fun _ => .error "bad json")
      (fun k => if k = authKey "SG" "google" then some "garbage" else none)
      "SG" "google").2.2.2.1 (by decide)

end OAuthEmail
